import Mathlib

/-!
Verification of the Floyd-Steinberg dithering core of the crosspoint
cover generator.

The dithering function `floyd_steinberg_dither` of the Python source is
shallowly embedded here over grids of exact rationals: a grid is a list
of rows, each row a list of `ℚ` samples.  The numpy array writes
`img_array[y, x] = v` and `img_array[y, x] += d` become the functional
updates `gridSet` and `gridAdd`; the doubly nested `for y ... for x ...`
loop becomes a fold over the raster-order index list `rasterIndices`.
The CLI entry point `main` is embedded as a total function from the
argument vector and a file-existence oracle to the outcome of its
control flow.
-/

namespace Crosspoint

/-- A grid of samples: a list of rows, each row a list of rationals.
Mirrors the 2-D numpy array `img_array` of the source. -/
abbrev Grid := List (List ℚ)

/-- Read `img_array[y, x]`; out-of-bounds reads default to `0`
(the algorithm only ever reads in bounds). -/
def gridGet (g : Grid) (y x : Nat) : ℚ :=
  (g.getD y []).getD x 0

/-- The write `img_array[y, x] = v`; out-of-bounds writes are no-ops
(the algorithm only ever writes in bounds, behind its guards). -/
def gridSet (g : Grid) (y x : Nat) (v : ℚ) : Grid :=
  g.set y ((g.getD y []).set x v)

/-- The accumulating write `img_array[y, x] += d` of the source. -/
def gridAdd (g : Grid) (y x : Nat) (d : ℚ) : Grid :=
  gridSet g y x (gridGet g y x + d)

/-- The threshold step of the source:
`new_pixel = 255 if old_pixel > 127 else 0`. -/
def quantize (old_pixel : ℚ) : ℚ :=
  if old_pixel > 127 then 255 else 0

/-- The body of the doubly nested loop of `floyd_steinberg_dither` at the
current pixel `(y, x)`: threshold, write back, and distribute the error
to the four Floyd-Steinberg neighbors behind the bounds guards of the
source. -/
def ditherPixel (height width : Nat) (g : Grid) (y x : Nat) : Grid :=
  let old_pixel := gridGet g y x
  let new_pixel := quantize old_pixel
  let g0 := gridSet g y x new_pixel
  let error := old_pixel - new_pixel
  let g1 := if x + 1 < width then gridAdd g0 y (x + 1) (error * 7 / 16) else g0
  if y + 1 < height then
    let g2 := if 0 < x then gridAdd g1 (y + 1) (x - 1) (error * 3 / 16) else g1
    let g3 := gridAdd g2 (y + 1) x (error * 5 / 16)
    if x + 1 < width then gridAdd g3 (y + 1) (x + 1) (error * 1 / 16) else g3
  else g1

/-- The index sequence of the doubly nested loop
`for y in range(height): for x in range(width):` in raster order. -/
def rasterIndices (height width : Nat) : List (Nat × Nat) :=
  (List.range height).flatMap (fun y => (List.range width).map (fun x => (y, x)))

/-- Run the loop body over a given index sequence, threading the grid. -/
def ditherFold (height width : Nat) (g : Grid) (idxs : List (Nat × Nat)) : Grid :=
  idxs.foldl (fun acc p => ditherPixel height width acc p.1 p.2) g

/-- The whole pass of `floyd_steinberg_dither`: the dimensions are read
from the array (`height, width = img_array.shape`) and the loop body is
run over every cell in raster order. -/
def floyd_steinberg_dither (image : Grid) : Grid :=
  let height := image.length
  let width := (image.headD []).length
  ditherFold height width image (rasterIndices height width)

/-- Strict raster-scan order on cell indices `(row, column)`. -/
def rasterLT (p q : Nat × Nat) : Prop :=
  p.1 < q.1 ∨ (p.1 = q.1 ∧ p.2 < q.2)

instance (p q : Nat × Nat) : Decidable (rasterLT p q) := by
  unfold rasterLT; exact inferInstance

/-- Every cell of the grid holds exactly `0` or `255`. -/
def allBinary (g : Grid) : Prop :=
  ∀ row ∈ g, ∀ v ∈ row, v = 0 ∨ v = 255

instance (g : Grid) : Decidable (allBinary g) := by
  unfold allBinary; exact inferInstance

/-! ### Basic list-update lemmas -/

lemma getD_set_self {α : Type} (l : List α) (i : Nat) (a d : α) (h : i < l.length) :
    (l.set i a).getD i d = a := by
  rw [List.getD_eq_getElem?_getD, List.getElem?_set]
  simp [h]

lemma getD_set_ne {α : Type} (l : List α) {i j : Nat} (a d : α) (h : i ≠ j) :
    (l.set i a).getD j d = l.getD j d := by
  rw [List.getD_eq_getElem?_getD, List.getElem?_set, if_neg h, ← List.getD_eq_getElem?_getD]

lemma set_getD_self {α : Type} (l : List α) (i : Nat) (d : α) (h : i < l.length) :
    l.set i (l.getD i d) = l := by
  apply List.ext_getElem?
  intro n
  rw [List.getElem?_set]
  by_cases hn : i = n
  · subst hn
    rw [if_pos rfl, if_pos h, List.getD_eq_getElem _ _ h, List.getElem?_eq_getElem h]
  · rw [if_neg hn]

/-! ### Reads and writes on grids -/

lemma length_gridSet (g : Grid) (y x : Nat) (v : ℚ) :
    (gridSet g y x v).length = g.length :=
  List.length_set g y _

lemma rowLen_gridSet (g : Grid) (y x : Nat) (v : ℚ) (i : Nat) :
    ((gridSet g y x v).getD i []).length = (g.getD i []).length := by
  unfold gridSet
  by_cases hyi : y = i
  · subst hyi
    by_cases hl : y < g.length
    · rw [getD_set_self _ _ _ _ hl, List.length_set]
    · rw [List.set_eq_of_length_le (le_of_not_lt hl)]
  · rw [getD_set_ne _ _ _ hyi]

lemma gridGet_gridSet_self {g : Grid} {y x : Nat} (v : ℚ)
    (hy : y < g.length) (hx : x < (g.getD y []).length) :
    gridGet (gridSet g y x v) y x = v := by
  unfold gridGet gridSet
  rw [getD_set_self _ _ _ _ hy, getD_set_self _ _ _ _ hx]

lemma gridGet_gridSet_ne {g : Grid} {y x y' x' : Nat} (v : ℚ)
    (h : (y', x') ≠ (y, x)) :
    gridGet (gridSet g y x v) y' x' = gridGet g y' x' := by
  unfold gridGet gridSet
  by_cases hy : y = y'
  · subst hy
    have hx : x ≠ x' := by
      intro hx
      exact h (by rw [hx])
    by_cases hl : y < g.length
    · rw [getD_set_self _ _ _ _ hl, getD_set_ne _ _ _ hx]
    · rw [List.set_eq_of_length_le (le_of_not_lt hl)]
  · rw [getD_set_ne _ _ _ hy]

lemma length_gridAdd (g : Grid) (y x : Nat) (d : ℚ) :
    (gridAdd g y x d).length = g.length :=
  length_gridSet g y x _

lemma rowLen_gridAdd (g : Grid) (y x : Nat) (d : ℚ) (i : Nat) :
    ((gridAdd g y x d).getD i []).length = (g.getD i []).length :=
  rowLen_gridSet g y x _ i

lemma gridGet_gridAdd_self {g : Grid} {y x : Nat} (d : ℚ)
    (hy : y < g.length) (hx : x < (g.getD y []).length) :
    gridGet (gridAdd g y x d) y x = gridGet g y x + d :=
  gridGet_gridSet_self _ hy hx

lemma gridGet_gridAdd_ne {g : Grid} {y x y' x' : Nat} {d : ℚ}
    (h : (y', x') ≠ (y, x)) :
    gridGet (gridAdd g y x d) y' x' = gridGet g y' x' :=
  gridGet_gridSet_ne _ h

lemma gridSet_gridGet_self {g : Grid} {y x : Nat}
    (hy : y < g.length) (hx : x < (g.getD y []).length) :
    gridSet g y x (gridGet g y x) = g := by
  unfold gridSet gridGet
  rw [set_getD_self _ _ _ hx, set_getD_self _ _ _ hy]

lemma gridAdd_eq_self {g : Grid} {y x : Nat} {d : ℚ} (hd : d = 0)
    (hy : y < g.length) (hx : x < (g.getD y []).length) :
    gridAdd g y x d = g := by
  unfold gridAdd
  rw [hd, add_zero]
  exact gridSet_gridGet_self hy hx

/-- A pair inequality from an inequality of one component. -/
lemma pair_ne_of {a b c d : Nat} (h : a ≠ c ∨ b ≠ d) : (a, b) ≠ (c, d) := by
  intro he
  injection he with h1 h2
  rcases h with h | h <;> exact h (by assumption)

/-! ### The loop body -/

lemma length_ditherPixel (h w : Nat) (g : Grid) (y x : Nat) :
    (ditherPixel h w g y x).length = g.length := by
  simp only [ditherPixel]
  split_ifs <;> simp only [length_gridAdd, length_gridSet]

lemma rowLen_ditherPixel (h w : Nat) (g : Grid) (y x i : Nat) :
    ((ditherPixel h w g y x).getD i []).length = (g.getD i []).length := by
  simp only [ditherPixel]
  split_ifs <;> simp only [rowLen_gridAdd, rowLen_gridSet]

/-- A cell that is none of the five written targets of the loop body is
left unchanged: out-of-bounds neighbors are skipped, there is no
wraparound and no write anywhere else. -/
lemma gridGet_ditherPixel_nontarget (h w : Nat) (g : Grid) {y x y' x' : Nat}
    (h0 : (y', x') ≠ (y, x)) (h1 : (y', x') ≠ (y, x + 1))
    (h2 : (y', x') ≠ (y + 1, x - 1)) (h3 : (y', x') ≠ (y + 1, x))
    (h4 : (y', x') ≠ (y + 1, x + 1)) :
    gridGet (ditherPixel h w g y x) y' x' = gridGet g y' x' := by
  simp only [ditherPixel]
  split_ifs <;>
    simp only [gridGet_gridAdd_ne h1, gridGet_gridAdd_ne h2, gridGet_gridAdd_ne h3,
      gridGet_gridAdd_ne h4, gridGet_gridSet_ne _ h0]

/-- The current pixel is overwritten with its quantized value and none of
the four diffusion writes touches it again. -/
lemma gridGet_ditherPixel_self (h w : Nat) {g : Grid} {y x : Nat}
    (hy : y < g.length) (hx : x < (g.getD y []).length) :
    gridGet (ditherPixel h w g y x) y x = quantize (gridGet g y x) := by
  have n1 : ((y : Nat), (x : Nat)) ≠ (y, x + 1) := pair_ne_of (Or.inr (by omega))
  have n2 : ((y : Nat), (x : Nat)) ≠ (y + 1, x - 1) := pair_ne_of (Or.inl (by omega))
  have n3 : ((y : Nat), (x : Nat)) ≠ (y + 1, x) := pair_ne_of (Or.inl (by omega))
  have n4 : ((y : Nat), (x : Nat)) ≠ (y + 1, x + 1) := pair_ne_of (Or.inl (by omega))
  simp only [ditherPixel]
  split_ifs <;>
    simp only [gridGet_gridAdd_ne n1, gridGet_gridAdd_ne n2, gridGet_gridAdd_ne n3,
      gridGet_gridAdd_ne n4, gridGet_gridSet_self _ hy hx]

/-- In-bounds right neighbor: receives `error * 7/16` on top of its
stored value. -/
lemma gridGet_ditherPixel_right (h w : Nat) {g : Grid} {y x : Nat}
    (hxw : x + 1 < w) (hy : y < g.length) (hx1 : x + 1 < (g.getD y []).length) :
    gridGet (ditherPixel h w g y x) y (x + 1)
      = gridGet g y (x + 1) + (gridGet g y x - quantize (gridGet g y x)) * 7 / 16 := by
  have n0 : ((y : Nat), x + 1) ≠ (y, x) := pair_ne_of (Or.inr (by omega))
  have n2 : ((y : Nat), x + 1) ≠ (y + 1, x - 1) := pair_ne_of (Or.inl (by omega))
  have n3 : ((y : Nat), x + 1) ≠ (y + 1, x) := pair_ne_of (Or.inl (by omega))
  have n4 : ((y : Nat), x + 1) ≠ (y + 1, x + 1) := pair_ne_of (Or.inl (by omega))
  simp only [ditherPixel, if_pos hxw]
  split_ifs with h2 h3
  · rw [gridGet_gridAdd_ne n4, gridGet_gridAdd_ne n3, gridGet_gridAdd_ne n2,
      gridGet_gridAdd_self _ (by simp only [length_gridSet]; exact hy)
        (by simp only [rowLen_gridSet]; exact hx1),
      gridGet_gridSet_ne _ n0]
  · rw [gridGet_gridAdd_ne n4, gridGet_gridAdd_ne n3,
      gridGet_gridAdd_self _ (by simp only [length_gridSet]; exact hy)
        (by simp only [rowLen_gridSet]; exact hx1),
      gridGet_gridSet_ne _ n0]
  · rw [gridGet_gridAdd_self _ (by simp only [length_gridSet]; exact hy)
        (by simp only [rowLen_gridSet]; exact hx1),
      gridGet_gridSet_ne _ n0]

/-- In-bounds below-left neighbor: receives `error * 3/16` on top of its
stored value. -/
lemma gridGet_ditherPixel_belowLeft (h w : Nat) {g : Grid} {y x : Nat}
    (hyh : y + 1 < h) (hxpos : 0 < x)
    (hy1 : y + 1 < g.length) (hxb : x - 1 < (g.getD (y + 1) []).length) :
    gridGet (ditherPixel h w g y x) (y + 1) (x - 1)
      = gridGet g (y + 1) (x - 1)
        + (gridGet g y x - quantize (gridGet g y x)) * 3 / 16 := by
  have m0 : (y + 1, x - 1) ≠ ((y : Nat), (x : Nat)) := pair_ne_of (Or.inl (by omega))
  have mR : (y + 1, x - 1) ≠ ((y : Nat), x + 1) := pair_ne_of (Or.inl (by omega))
  have m3 : (y + 1, x - 1) ≠ (y + 1, (x : Nat)) := pair_ne_of (Or.inr (by omega))
  have m4 : (y + 1, x - 1) ≠ (y + 1, x + 1) := pair_ne_of (Or.inr (by omega))
  simp only [ditherPixel, if_pos hyh, if_pos hxpos]
  split_ifs with h1
  · rw [gridGet_gridAdd_ne m4, gridGet_gridAdd_ne m3,
      gridGet_gridAdd_self _
        (by simp only [length_gridAdd, length_gridSet]; exact hy1)
        (by simp only [rowLen_gridAdd, rowLen_gridSet]; exact hxb),
      gridGet_gridAdd_ne mR, gridGet_gridSet_ne _ m0]
  · rw [gridGet_gridAdd_ne m3,
      gridGet_gridAdd_self _ (by simp only [length_gridSet]; exact hy1)
        (by simp only [rowLen_gridSet]; exact hxb),
      gridGet_gridSet_ne _ m0]

/-- In-bounds below neighbor: receives `error * 5/16` on top of its
stored value. -/
lemma gridGet_ditherPixel_below (h w : Nat) {g : Grid} {y x : Nat}
    (hyh : y + 1 < h)
    (hy1 : y + 1 < g.length) (hxb : x < (g.getD (y + 1) []).length) :
    gridGet (ditherPixel h w g y x) (y + 1) x
      = gridGet g (y + 1) x + (gridGet g y x - quantize (gridGet g y x)) * 5 / 16 := by
  have p0 : (y + 1, (x : Nat)) ≠ ((y : Nat), (x : Nat)) := pair_ne_of (Or.inl (by omega))
  have pR : (y + 1, (x : Nat)) ≠ ((y : Nat), x + 1) := pair_ne_of (Or.inl (by omega))
  have p4 : (y + 1, (x : Nat)) ≠ (y + 1, x + 1) := pair_ne_of (Or.inr (by omega))
  simp only [ditherPixel, if_pos hyh]
  split_ifs with h1 h3
  · have pBL : (y + 1, (x : Nat)) ≠ (y + 1, x - 1) := pair_ne_of (Or.inr (by omega))
    rw [gridGet_gridAdd_ne p4,
      gridGet_gridAdd_self _
        (by simp only [length_gridAdd, length_gridSet]; exact hy1)
        (by simp only [rowLen_gridAdd, rowLen_gridSet]; exact hxb),
      gridGet_gridAdd_ne pBL, gridGet_gridAdd_ne pR, gridGet_gridSet_ne _ p0]
  · rw [gridGet_gridAdd_ne p4,
      gridGet_gridAdd_self _
        (by simp only [length_gridAdd, length_gridSet]; exact hy1)
        (by simp only [rowLen_gridAdd, rowLen_gridSet]; exact hxb),
      gridGet_gridAdd_ne pR, gridGet_gridSet_ne _ p0]
  · have pBL : (y + 1, (x : Nat)) ≠ (y + 1, x - 1) := pair_ne_of (Or.inr (by omega))
    rw [gridGet_gridAdd_self _
        (by simp only [length_gridAdd, length_gridSet]; exact hy1)
        (by simp only [rowLen_gridAdd, rowLen_gridSet]; exact hxb),
      gridGet_gridAdd_ne pBL, gridGet_gridSet_ne _ p0]
  · rw [gridGet_gridAdd_self _ (by simp only [length_gridSet]; exact hy1)
        (by simp only [rowLen_gridSet]; exact hxb),
      gridGet_gridSet_ne _ p0]

/-- In-bounds below-right neighbor: receives `error * 1/16` on top of its
stored value. -/
lemma gridGet_ditherPixel_belowRight (h w : Nat) {g : Grid} {y x : Nat}
    (hyh : y + 1 < h) (hxw : x + 1 < w)
    (hy1 : y + 1 < g.length) (hxb : x + 1 < (g.getD (y + 1) []).length) :
    gridGet (ditherPixel h w g y x) (y + 1) (x + 1)
      = gridGet g (y + 1) (x + 1)
        + (gridGet g y x - quantize (gridGet g y x)) * 1 / 16 := by
  have r0 : (y + 1, x + 1) ≠ ((y : Nat), (x : Nat)) := pair_ne_of (Or.inl (by omega))
  have rR : (y + 1, x + 1) ≠ ((y : Nat), x + 1) := pair_ne_of (Or.inl (by omega))
  have rBL : (y + 1, x + 1) ≠ (y + 1, x - 1) := pair_ne_of (Or.inr (by omega))
  have rB : (y + 1, x + 1) ≠ (y + 1, (x : Nat)) := pair_ne_of (Or.inr (by omega))
  simp only [ditherPixel, if_pos hyh, if_pos hxw]
  split_ifs with h3
  · rw [gridGet_gridAdd_self _
        (by simp only [length_gridAdd, length_gridSet]; exact hy1)
        (by simp only [rowLen_gridAdd, rowLen_gridSet]; exact hxb),
      gridGet_gridAdd_ne rB, gridGet_gridAdd_ne rBL, gridGet_gridAdd_ne rR,
      gridGet_gridSet_ne _ r0]
  · rw [gridGet_gridAdd_self _
        (by simp only [length_gridAdd, length_gridSet]; exact hy1)
        (by simp only [rowLen_gridAdd, rowLen_gridSet]; exact hxb),
      gridGet_gridAdd_ne rB, gridGet_gridAdd_ne rR, gridGet_gridSet_ne _ r0]

/-! ### The raster-order pass -/

lemma ditherFold_nil (h w : Nat) (g : Grid) : ditherFold h w g [] = g := rfl

lemma ditherFold_cons (h w : Nat) (g : Grid) (p : Nat × Nat) (idxs : List (Nat × Nat)) :
    ditherFold h w g (p :: idxs) = ditherFold h w (ditherPixel h w g p.1 p.2) idxs := rfl

lemma ditherFold_append (h w : Nat) (g : Grid) (l1 l2 : List (Nat × Nat)) :
    ditherFold h w g (l1 ++ l2) = ditherFold h w (ditherFold h w g l1) l2 :=
  List.foldl_append _ _ _ _

lemma length_ditherFold (h w : Nat) (g : Grid) (idxs : List (Nat × Nat)) :
    (ditherFold h w g idxs).length = g.length := by
  induction idxs generalizing g with
  | nil => rfl
  | cons p rest ih => rw [ditherFold_cons, ih, length_ditherPixel]

lemma rowLen_ditherFold (h w : Nat) (g : Grid) (idxs : List (Nat × Nat)) (i : Nat) :
    ((ditherFold h w g idxs).getD i []).length = (g.getD i []).length := by
  induction idxs generalizing g with
  | nil => rfl
  | cons p rest ih => rw [ditherFold_cons, ih, rowLen_ditherPixel]

/-- A cell strictly earlier in raster order than the current pixel is not
among the five write targets of the loop body. -/
lemma gridGet_ditherPixel_earlier (h w : Nat) (g : Grid) {y x a b : Nat}
    (hlt : rasterLT (y, x) (a, b)) :
    gridGet (ditherPixel h w g a b) y x = gridGet g y x := by
  rcases hlt with hlt | ⟨heq, hlt⟩
  · exact gridGet_ditherPixel_nontarget h w g
      (pair_ne_of (Or.inl (by omega))) (pair_ne_of (Or.inl (by omega)))
      (pair_ne_of (Or.inl (by omega))) (pair_ne_of (Or.inl (by omega)))
      (pair_ne_of (Or.inl (by omega)))
  · exact gridGet_ditherPixel_nontarget h w g
      (pair_ne_of (Or.inr (by omega))) (pair_ne_of (Or.inr (by omega)))
      (pair_ne_of (Or.inl (by omega))) (pair_ne_of (Or.inl (by omega)))
      (pair_ne_of (Or.inl (by omega)))

/-- Once the scan has moved strictly past a cell, no later loop iteration
modifies it. -/
lemma gridGet_ditherFold_earlier (h w : Nat) {g : Grid} {y x : Nat}
    {idxs : List (Nat × Nat)} (hall : ∀ q ∈ idxs, rasterLT (y, x) q) :
    gridGet (ditherFold h w g idxs) y x = gridGet g y x := by
  induction idxs generalizing g with
  | nil => rfl
  | cons p rest ih =>
    obtain ⟨a, b⟩ := p
    rw [ditherFold_cons, ih (fun q hq => hall q (List.mem_cons_of_mem _ hq))]
    exact gridGet_ditherPixel_earlier h w g (hall (a, b) (List.mem_cons_self _ _))

/-! ### Raster order -/

lemma mem_rasterIndices {h w : Nat} {p : Nat × Nat} :
    p ∈ rasterIndices h w ↔ p.1 < h ∧ p.2 < w := by
  obtain ⟨y, x⟩ := p
  simp only [rasterIndices, List.mem_flatMap, List.mem_map, List.mem_range]
  constructor
  · rintro ⟨a, ha, b, hb, heq⟩
    injection heq with h1 h2
    subst h1; subst h2
    exact ⟨ha, hb⟩
  · rintro ⟨hy, hx⟩
    exact ⟨y, hy, x, hx, rfl⟩

lemma pairwise_flatMap_of {α β : Type} {R : β → β → Prop} {S : α → α → Prop}
    {f : α → List β} {l : List α} (hl : List.Pairwise S l)
    (hf : ∀ a ∈ l, List.Pairwise R (f a))
    (hcross : ∀ a b, S a b → ∀ p ∈ f a, ∀ q ∈ f b, R p q) :
    List.Pairwise R (l.flatMap f) := by
  induction l with
  | nil => simp
  | cons a rest ih =>
    rw [List.flatMap_cons, List.pairwise_append]
    rcases hl with _ | ⟨hrel, htail⟩
    refine ⟨hf a (List.mem_cons_self _ _), ih htail (fun b hb => hf b (List.mem_cons_of_mem _ hb)), ?_⟩
    intro p hp q hq
    rw [List.mem_flatMap] at hq
    obtain ⟨b, hb, hqb⟩ := hq
    exact hcross a b (hrel b hb) p hp q hqb

/-- The loop's index sequence is strictly increasing in raster order. -/
lemma rasterIndices_pairwise (h w : Nat) :
    List.Pairwise rasterLT (rasterIndices h w) := by
  apply pairwise_flatMap_of (List.pairwise_lt_range h)
  · intro a _
    rw [List.pairwise_map]
    exact (List.pairwise_lt_range w).imp (fun hlt => Or.inr ⟨rfl, hlt⟩)
  · intro a b hab p hp q hq
    rw [List.mem_map] at hp hq
    obtain ⟨i, _, hpi⟩ := hp
    obtain ⟨j, _, hqj⟩ := hq
    subst hpi; subst hqj
    exact Or.inl hab

/-- The index sequence splits around any in-bounds cell: everything before
it is strictly earlier in raster order, everything after strictly later. -/
lemma rasterIndices_decomp {h w y x : Nat} (hy : y < h) (hx : x < w) :
    ∃ before after, rasterIndices h w = before ++ (y, x) :: after
      ∧ (∀ q ∈ before, rasterLT q (y, x)) ∧ (∀ q ∈ after, rasterLT (y, x) q) := by
  have hmem : (y, x) ∈ rasterIndices h w := mem_rasterIndices.mpr ⟨hy, hx⟩
  obtain ⟨before, after, heq⟩ := List.append_of_mem hmem
  have hpw := rasterIndices_pairwise h w
  rw [heq, List.pairwise_append] at hpw
  obtain ⟨-, hpost, hcross⟩ := hpw
  refine ⟨before, after, heq, ?_, ?_⟩
  · intro q hq
    exact hcross q hq (y, x) (List.mem_cons_self _ _)
  · rcases hpost with _ | ⟨hrel, -⟩
    exact hrel

/-! ### The whole pass -/

lemma headD_eq_getD {α : Type} (l : List α) (d : α) : l.headD d = l.getD 0 d := by
  cases l <;> rfl

lemma rowLen_of_rect {g : Grid} {w : Nat} (hrect : ∀ r ∈ g, r.length = w)
    {i : Nat} (hi : i < g.length) : (g.getD i []).length = w := by
  rw [List.getD_eq_getElem _ _ hi]
  exact hrect _ (List.getElem_mem hi)

lemma width_of_rect {g : Grid} {w : Nat} (hrect : ∀ r ∈ g, r.length = w)
    (hne : 0 < g.length) : (g.headD []).length = w := by
  rw [headD_eq_getD]
  exact rowLen_of_rect hrect hne

lemma floyd_eq_ditherFold {g : Grid} {w : Nat} (hrect : ∀ r ∈ g, r.length = w)
    (hne : 0 < g.length) :
    floyd_steinberg_dither g
      = ditherFold g.length w g (rasterIndices g.length w) := by
  simp only [floyd_steinberg_dither]
  rw [width_of_rect hrect hne]

lemma length_floyd (g : Grid) : (floyd_steinberg_dither g).length = g.length :=
  length_ditherFold _ _ _ _

lemma rowLen_floyd (g : Grid) (i : Nat) :
    ((floyd_steinberg_dither g).getD i []).length = (g.getD i []).length :=
  rowLen_ditherFold _ _ _ _ _

lemma quantize_binary (q : ℚ) : quantize q = 0 ∨ quantize q = 255 := by
  unfold quantize
  split_ifs <;> simp

/-- The central per-cell fact: the pass visits `(y, x)` exactly once, with
everything before it strictly earlier and everything after strictly later
in raster order, and the final value of the cell is the quantization of
its stored value at visit time (never touched again afterwards). -/
lemma dither_get_eq_quantize {g : Grid} {w : Nat} (hrect : ∀ r ∈ g, r.length = w)
    {y x : Nat} (hy : y < g.length) (hx : x < w) :
    ∃ before after, rasterIndices g.length w = before ++ (y, x) :: after
      ∧ (∀ q ∈ before, rasterLT q (y, x)) ∧ (∀ q ∈ after, rasterLT (y, x) q)
      ∧ gridGet (floyd_steinberg_dither g) y x
          = quantize (gridGet (ditherFold g.length w g before) y x) := by
  obtain ⟨before, after, heq, hb, ha⟩ := rasterIndices_decomp hy hx
  refine ⟨before, after, heq, hb, ha, ?_⟩
  rw [floyd_eq_ditherFold hrect (by omega), heq,
    ditherFold_append, ditherFold_cons, gridGet_ditherFold_earlier _ _ ha]
  exact gridGet_ditherPixel_self _ _
    (by rw [length_ditherFold]; exact hy)
    (by rw [rowLen_ditherFold, rowLen_of_rect hrect hy]; exact hx)

/-- Every cell of the output grid is exactly `0` or `255`. -/
lemma dither_allBinary {g : Grid} {w : Nat} (hrect : ∀ r ∈ g, r.length = w) :
    allBinary (floyd_steinberg_dither g) := by
  intro row hrow v hv
  obtain ⟨i, hi, hrow_eq⟩ := List.mem_iff_getElem.mp hrow
  obtain ⟨j, hj, hv_eq⟩ := List.mem_iff_getElem.mp hv
  have hig : i < g.length := by rw [← length_floyd]; exact hi
  have hrowD : (floyd_steinberg_dither g).getD i [] = row := by
    rw [List.getD_eq_getElem _ _ hi, hrow_eq]
  have hjw : j < w := by
    rw [← rowLen_of_rect hrect hig, ← rowLen_floyd, hrowD]
    exact hj
  have hval : gridGet (floyd_steinberg_dither g) i j = v := by
    unfold gridGet
    rw [hrowD, List.getD_eq_getElem _ _ hj, hv_eq]
  obtain ⟨before, after, -, -, -, hfinal⟩ := dither_get_eq_quantize hrect hig hjw
  rw [hval] at hfinal
  rw [hfinal]
  exact quantize_binary _

/-- Degenerate grids: no rows, or rectangular with width `0`, are returned
unchanged with no iteration. -/
lemma floyd_degenerate {g : Grid} {w : Nat} (hrect : ∀ r ∈ g, r.length = w)
    (hdeg : g.length = 0 ∨ w = 0) : floyd_steinberg_dither g = g := by
  rcases Nat.eq_zero_or_pos g.length with hz | hpos
  · rw [List.length_eq_zero] at hz
    subst hz
    rfl
  · have hw : w = 0 := by
      rcases hdeg with hdeg | hdeg
      · omega
      · exact hdeg
    subst hw
    rw [floyd_eq_ditherFold hrect hpos]
    have hnil : rasterIndices g.length 0 = [] := by
      simp [rasterIndices]
    rw [hnil, ditherFold_nil]

/-! ### Fixed points: grids already binary -/

lemma allBinary_get {g : Grid} (hbin : allBinary g) {y x : Nat}
    (hy : y < g.length) (hx : x < (g.getD y []).length) :
    gridGet g y x = 0 ∨ gridGet g y x = 255 := by
  unfold gridGet
  rw [List.getD_eq_getElem _ _ hy] at hx ⊢
  rw [List.getD_eq_getElem _ _ hx]
  exact hbin _ (List.getElem_mem hy) _ (List.getElem_mem hx)

lemma quantize_fixed {q : ℚ} (hq : q = 0 ∨ q = 255) : quantize q = q := by
  rcases hq with h | h <;> rw [h] <;> norm_num [quantize]

/-- A loop-body step at a cell that already holds `0` or `255` changes
nothing: the cell quantizes to itself and every diffused error is `0`. -/
lemma ditherPixel_fixed {h w : Nat} {g : Grid} {y x : Nat}
    (hh : g.length = h) (hrect : ∀ r ∈ g, r.length = w)
    (hy : y < h) (hx : x < w)
    (hbin : gridGet g y x = 0 ∨ gridGet g y x = 255) :
    ditherPixel h w g y x = g := by
  have hyg : y < g.length := by omega
  have hrow : (g.getD y []).length = w := rowLen_of_rect hrect hyg
  have hxg : x < (g.getD y []).length := by omega
  have hq : quantize (gridGet g y x) = gridGet g y x := quantize_fixed hbin
  have herr : gridGet g y x - quantize (gridGet g y x) = 0 := by rw [hq]; ring
  have hset : gridSet g y x (quantize (gridGet g y x)) = g := by
    rw [hq]; exact gridSet_gridGet_self hyg hxg
  have d7 : (gridGet g y x - quantize (gridGet g y x)) * 7 / 16 = 0 := by rw [herr]; ring
  have d3 : (gridGet g y x - quantize (gridGet g y x)) * 3 / 16 = 0 := by rw [herr]; ring
  have d5 : (gridGet g y x - quantize (gridGet g y x)) * 5 / 16 = 0 := by rw [herr]; ring
  have d1 : (gridGet g y x - quantize (gridGet g y x)) * 1 / 16 = 0 := by rw [herr]; ring
  by_cases h2 : y + 1 < h
  · have hy1g : y + 1 < g.length := by omega
    have hrow1 : (g.getD (y + 1) []).length = w := rowLen_of_rect hrect hy1g
    by_cases h1 : x + 1 < w
    · by_cases h3 : 0 < x
      · simp only [ditherPixel, if_pos h1, if_pos h2, if_pos h3]
        rw [hset, gridAdd_eq_self d7 hyg (by omega), gridAdd_eq_self d3 hy1g (by omega),
          gridAdd_eq_self d5 hy1g (by omega), gridAdd_eq_self d1 hy1g (by omega)]
      · simp only [ditherPixel, if_pos h1, if_pos h2, if_neg h3]
        rw [hset, gridAdd_eq_self d7 hyg (by omega),
          gridAdd_eq_self d5 hy1g (by omega), gridAdd_eq_self d1 hy1g (by omega)]
    · by_cases h3 : 0 < x
      · simp only [ditherPixel, if_neg h1, if_pos h2, if_pos h3]
        rw [hset, gridAdd_eq_self d3 hy1g (by omega), gridAdd_eq_self d5 hy1g (by omega)]
      · simp only [ditherPixel, if_neg h1, if_pos h2, if_neg h3]
        rw [hset, gridAdd_eq_self d5 hy1g (by omega)]
  · by_cases h1 : x + 1 < w
    · simp only [ditherPixel, if_pos h1, if_neg h2]
      rw [hset, gridAdd_eq_self d7 hyg (by omega)]
    · simp only [ditherPixel, if_neg h1, if_neg h2]
      exact hset

lemma ditherFold_fixed {h w : Nat} {g : Grid}
    (hh : g.length = h) (hrect : ∀ r ∈ g, r.length = w) (hbin : allBinary g)
    {idxs : List (Nat × Nat)} (hidx : ∀ p ∈ idxs, p.1 < h ∧ p.2 < w) :
    ditherFold h w g idxs = g := by
  induction idxs with
  | nil => rfl
  | cons p rest ih =>
    obtain ⟨a, b⟩ := p
    obtain ⟨ha, hb⟩ := hidx (a, b) (List.mem_cons_self _ _)
    have hag : a < g.length := by omega
    have hbg : b < (g.getD a []).length := by
      rw [rowLen_of_rect hrect hag]; exact hb
    rw [ditherFold_cons]
    rw [show ditherPixel h w g a b = g from
      ditherPixel_fixed hh hrect ha hb (allBinary_get hbin hag hbg)]
    exact ih (fun q hq => hidx q (List.mem_cons_of_mem _ hq))

/-- An already-binary grid is a fixed point of the whole pass. -/
lemma floyd_fixed_of_allBinary {g : Grid} {w : Nat}
    (hrect : ∀ r ∈ g, r.length = w) (hbin : allBinary g) :
    floyd_steinberg_dither g = g := by
  rcases Nat.eq_zero_or_pos g.length with hz | hpos
  · rw [List.length_eq_zero] at hz
    subst hz
    rfl
  · rw [floyd_eq_ditherFold hrect hpos]
    exact ditherFold_fixed rfl hrect hbin (fun p hp => mem_rasterIndices.mp hp)

lemma rect_floyd {g : Grid} {w : Nat} (hrect : ∀ r ∈ g, r.length = w) :
    ∀ r ∈ floyd_steinberg_dither g, r.length = w := by
  intro r hr
  obtain ⟨i, hi, hr_eq⟩ := List.mem_iff_getElem.mp hr
  have hig : i < g.length := by rw [← length_floyd]; exact hi
  have hD : (floyd_steinberg_dither g).getD i [] = r := by
    rw [List.getD_eq_getElem _ _ hi, hr_eq]
  rw [← hD, rowLen_floyd]
  exact rowLen_of_rect hrect hig

/-- The pass is idempotent on rectangular grids. -/
lemma floyd_idem {g : Grid} {w : Nat} (hrect : ∀ r ∈ g, r.length = w) :
    floyd_steinberg_dither (floyd_steinberg_dither g) = floyd_steinberg_dither g :=
  floyd_fixed_of_allBinary (rect_floyd hrect) (dither_allBinary hrect)

/-! ### The CLI entry point -/

/-- Outcome of the control flow of `main`: print usage and return, print a
file-not-found diagnostic and return, or hand the path to the conversion.
Each constructor is a normal return — no exception escapes. -/
inductive CliOutcome where
  | usage : CliOutcome
  | fileNotFound (input_path : String) : CliOutcome
  | convert (input_path : String) : CliOutcome
deriving DecidableEq

/-- The control flow of `main`: fewer than two entries in `sys.argv`
prints usage and returns; a path that fails the `os.path.exists` check
prints an error and returns; otherwise the conversion runs on the path.
The file-existence test is passed in as an oracle. -/
def main (argv : List String) (pathExists : String → Bool) : CliOutcome :=
  if argv.length < 2 then CliOutcome.usage
  else
    let input_path := argv.getD 1 ""
    if pathExists input_path = false then CliOutcome.fileNotFound input_path
    else CliOutcome.convert input_path

/-! ### The caller's image and the private buffer -/

/-- The two grids alive during a `floyd_steinberg_dither` call: the image
object the caller passed in, and the private float buffer `img_array`
that `np.array(image, dtype=float)` copies the pixels into. -/
structure DitherCallState where
  image : Grid
  img_array : Grid

/-- One loop iteration of the call: all index writes of the body target
`img_array`; the caller's image is never written. -/
def ditherCallStep (height width : Nat) (s : DitherCallState) (p : Nat × Nat) :
    DitherCallState :=
  { image := s.image, img_array := ditherPixel height width s.img_array p.1 p.2 }

/-- The whole call with both objects tracked: copy the pixels into the
fresh buffer, run the pass on the buffer, and return the final state
together with the binary image newly built from the buffer by
`Image.fromarray`. -/
def floyd_steinberg_dither_call (image : Grid) : DitherCallState × Grid :=
  let s0 : DitherCallState := { image := image, img_array := image }
  let height := s0.img_array.length
  let width := (s0.img_array.headD []).length
  let s1 := (rasterIndices height width).foldl (ditherCallStep height width) s0
  (s1, s1.img_array)

lemma ditherCallStep_foldl (h w : Nat) (s : DitherCallState)
    (idxs : List (Nat × Nat)) :
    (idxs.foldl (ditherCallStep h w) s).image = s.image
    ∧ (idxs.foldl (ditherCallStep h w) s).img_array = ditherFold h w s.img_array idxs := by
  induction idxs generalizing s with
  | nil => exact ⟨rfl, rfl⟩
  | cons p rest ih =>
    rw [List.foldl_cons, ditherFold_cons]
    exact ⟨(ih _).1, (ih _).2⟩

/-! ### The claims -/

/-- Claim C1: for every rectangular grid with `height ≥ 0` and `width ≥ 0`
of finite values, the dithering pass terminates (it is a total function)
and produces a grid of the same dimensions in which every cell is exactly
`0` or exactly `255`; a degenerate grid with zero rows or zero columns is
returned empty/unchanged with no iteration. -/
theorem c1_total_binary_same_shape (g : Grid) (w : Nat)
    (hrect : ∀ r ∈ g, r.length = w) :
    (floyd_steinberg_dither g).length = g.length
    ∧ (∀ i : Nat, ((floyd_steinberg_dither g).getD i []).length = (g.getD i []).length)
    ∧ (∀ row ∈ floyd_steinberg_dither g, ∀ v ∈ row, v = 0 ∨ v = 255)
    ∧ (g.length = 0 ∨ w = 0 → floyd_steinberg_dither g = g) :=
  ⟨length_floyd g, rowLen_floyd g, dither_allBinary hrect, floyd_degenerate hrect⟩

theorem c1_witness :
    (floyd_steinberg_dither [[(200 : ℚ)], [90]]).length = ([[(200 : ℚ)], [90]] : Grid).length
    ∧ (∀ i : Nat, ((floyd_steinberg_dither [[(200 : ℚ)], [90]]).getD i []).length
        = (([[(200 : ℚ)], [90]] : Grid).getD i []).length)
    ∧ (∀ row ∈ floyd_steinberg_dither [[(200 : ℚ)], [90]], ∀ v ∈ row, v = 0 ∨ v = 255)
    ∧ (([[(200 : ℚ)], [90]] : Grid).length = 0 ∨ 1 = 0
        → floyd_steinberg_dither [[(200 : ℚ)], [90]] = [[(200 : ℚ)], [90]]) :=
  c1_total_binary_same_shape [[(200 : ℚ)], [90]] 1 (by decide)

/-- Claim C2: at every visited pixel, the signed error `old - new` is
diffused to exactly the in-bounds members of the four fixed targets with
the fixed weights `7/16` (right), `3/16` (below-left), `5/16` (below),
`1/16` (below-right), each contribution added to the neighbor's current
stored value; out-of-bounds targets are skipped, and no other cell is
written (no wraparound, no clamping). -/
theorem c2_error_diffusion_weights (h w : Nat) (g : Grid) (y x : Nat)
    (hh : g.length = h) (hrect : ∀ r ∈ g, r.length = w)
    (hy : y < h) (hx : x < w) :
    (x + 1 < w →
      gridGet (ditherPixel h w g y x) y (x + 1)
        = gridGet g y (x + 1) + (gridGet g y x - quantize (gridGet g y x)) * 7 / 16)
    ∧ (y + 1 < h → 0 < x →
      gridGet (ditherPixel h w g y x) (y + 1) (x - 1)
        = gridGet g (y + 1) (x - 1) + (gridGet g y x - quantize (gridGet g y x)) * 3 / 16)
    ∧ (y + 1 < h →
      gridGet (ditherPixel h w g y x) (y + 1) x
        = gridGet g (y + 1) x + (gridGet g y x - quantize (gridGet g y x)) * 5 / 16)
    ∧ (y + 1 < h → x + 1 < w →
      gridGet (ditherPixel h w g y x) (y + 1) (x + 1)
        = gridGet g (y + 1) (x + 1) + (gridGet g y x - quantize (gridGet g y x)) * 1 / 16)
    ∧ (∀ y' x' : Nat, (y', x') ≠ (y, x) → (y', x') ≠ (y, x + 1)
        → (y', x') ≠ (y + 1, x - 1) → (y', x') ≠ (y + 1, x)
        → (y', x') ≠ (y + 1, x + 1)
        → gridGet (ditherPixel h w g y x) y' x' = gridGet g y' x') := by
  have hyg : y < g.length := by omega
  refine ⟨?_, ?_, ?_, ?_, ?_⟩
  · intro h1
    exact gridGet_ditherPixel_right h w h1 hyg
      (by rw [rowLen_of_rect hrect hyg]; exact h1)
  · intro h2 h3
    exact gridGet_ditherPixel_belowLeft h w h2 h3 (by omega)
      (by rw [rowLen_of_rect hrect (show y + 1 < g.length by omega)]; omega)
  · intro h2
    exact gridGet_ditherPixel_below h w h2 (by omega)
      (by rw [rowLen_of_rect hrect (show y + 1 < g.length by omega)]; exact hx)
  · intro h2 h1
    exact gridGet_ditherPixel_belowRight h w h2 h1 (by omega)
      (by rw [rowLen_of_rect hrect (show y + 1 < g.length by omega)]; exact h1)
  · intro y' x' e0 e1 e2 e3 e4
    exact gridGet_ditherPixel_nontarget h w g e0 e1 e2 e3 e4

theorem c2_witness :
    ((0 : Nat) + 1 < 2 →
      gridGet (ditherPixel 2 2 [[(100 : ℚ), 100], [100, 100]] 0 0) 0 (0 + 1)
        = gridGet [[(100 : ℚ), 100], [100, 100]] 0 (0 + 1)
          + (gridGet [[(100 : ℚ), 100], [100, 100]] 0 0
              - quantize (gridGet [[(100 : ℚ), 100], [100, 100]] 0 0)) * 7 / 16)
    ∧ ((0 : Nat) + 1 < 2 → 0 < 0 →
      gridGet (ditherPixel 2 2 [[(100 : ℚ), 100], [100, 100]] 0 0) (0 + 1) (0 - 1)
        = gridGet [[(100 : ℚ), 100], [100, 100]] (0 + 1) (0 - 1)
          + (gridGet [[(100 : ℚ), 100], [100, 100]] 0 0
              - quantize (gridGet [[(100 : ℚ), 100], [100, 100]] 0 0)) * 3 / 16)
    ∧ ((0 : Nat) + 1 < 2 →
      gridGet (ditherPixel 2 2 [[(100 : ℚ), 100], [100, 100]] 0 0) (0 + 1) 0
        = gridGet [[(100 : ℚ), 100], [100, 100]] (0 + 1) 0
          + (gridGet [[(100 : ℚ), 100], [100, 100]] 0 0
              - quantize (gridGet [[(100 : ℚ), 100], [100, 100]] 0 0)) * 5 / 16)
    ∧ ((0 : Nat) + 1 < 2 → (0 : Nat) + 1 < 2 →
      gridGet (ditherPixel 2 2 [[(100 : ℚ), 100], [100, 100]] 0 0) (0 + 1) (0 + 1)
        = gridGet [[(100 : ℚ), 100], [100, 100]] (0 + 1) (0 + 1)
          + (gridGet [[(100 : ℚ), 100], [100, 100]] 0 0
              - quantize (gridGet [[(100 : ℚ), 100], [100, 100]] 0 0)) * 1 / 16)
    ∧ (∀ y' x' : Nat, (y', x') ≠ (0, 0) → (y', x') ≠ (0, 0 + 1)
        → (y', x') ≠ (0 + 1, 0 - 1) → (y', x') ≠ (0 + 1, 0)
        → (y', x') ≠ (0 + 1, 0 + 1)
        → gridGet (ditherPixel 2 2 [[(100 : ℚ), 100], [100, 100]] 0 0) y' x'
            = gridGet [[(100 : ℚ), 100], [100, 100]] y' x') :=
  c2_error_diffusion_weights 2 2 [[(100 : ℚ), 100], [100, 100]] 0 0
    (by decide) (by decide) (by decide) (by decide)

/-- Claim C3: the current pixel with stored value `old` is overwritten
with `255` if `old > 127` and with `0` otherwise; the comparison is
strict, so a stored value of exactly `127` yields `0`. -/
theorem c3_strict_threshold (h w : Nat) (g : Grid) (y x : Nat)
    (hy : y < g.length) (hx : x < (g.getD y []).length) :
    gridGet (ditherPixel h w g y x) y x
      = (if 127 < gridGet g y x then 255 else 0)
    ∧ (gridGet g y x = 127 → gridGet (ditherPixel h w g y x) y x = 0) := by
  have hmain := gridGet_ditherPixel_self h w hy hx
  constructor
  · simpa only [quantize, gt_iff_lt] using hmain
  · intro h127
    rw [hmain, h127]
    norm_num [quantize]

theorem c3_witness :
    gridGet (ditherPixel 1 1 [[(127 : ℚ)]] 0 0) 0 0
      = (if 127 < gridGet [[(127 : ℚ)]] 0 0 then 255 else 0)
    ∧ (gridGet [[(127 : ℚ)]] 0 0 = 127
      → gridGet (ditherPixel 1 1 [[(127 : ℚ)]] 0 0) 0 0 = 0) :=
  c3_strict_threshold 1 1 [[(127 : ℚ)]] 0 0 (by decide) (by decide)

/-- Claim C4 counterexample: the claim says every all-`127` grid with
`height ≥ 1`, `width ≥ 1` dithers to an all-`0` grid, but on the
1×2 grid `[[127, 127]]` the first pixel quantizes to `0` with error
`127`, pushing the right neighbor to `182.5625 > 127`, so the output is
`[[0, 255]]`, not all `0`. -/
theorem c4_counterexample :
    floyd_steinberg_dither [[(127 : ℚ), 127]] = [[0, 255]]
    ∧ ¬ (∀ row ∈ floyd_steinberg_dither [[(127 : ℚ), 127]], ∀ v ∈ row, v = 0) := by
  have hout : floyd_steinberg_dither [[(127 : ℚ), 127]] = [[0, 255]] := by
    norm_num [floyd_steinberg_dither, rasterIndices, ditherFold, ditherPixel,
      gridAdd, gridSet, gridGet, quantize, List.range_succ]
  refine ⟨hout, fun hcontra => ?_⟩
  rw [hout] at hcontra
  have h255 := hcontra [0, 255] (by simp) 255 (by simp)
  norm_num at h255

/-- Claim C4 as amended: in an all-`127` grid (any `height ≥ 1`,
`width ≥ 1`) the first visited cell `(0,0)` still holds `127` at visit
time, so the strict `>` tie-break sends it to `0`; later cells receive
positive diffused error and need not be `0` (the 1×2 grid above yields
`[[0, 255]]`). -/
theorem c4_amended_first_cell_black (g : Grid) (w : Nat)
    (hrect : ∀ r ∈ g, r.length = w) (hh : 0 < g.length) (hw : 0 < w)
    (hall : ∀ row ∈ g, ∀ v ∈ row, v = 127) :
    gridGet (floyd_steinberg_dither g) 0 0 = 0 := by
  obtain ⟨before, after, heq, hb, ha, hfinal⟩ := dither_get_eq_quantize hrect hh hw
  have hbnil : before = [] := by
    cases before with
    | nil => rfl
    | cons q rest =>
      exfalso
      have hq := hb q (List.mem_cons_self _ _)
      rcases hq with hq | ⟨hq1, hq2⟩ <;> omega
  rw [hbnil, ditherFold_nil] at hfinal
  have hrow0 : 0 < (g.getD 0 []).length := by
    rw [rowLen_of_rect hrect hh]; exact hw
  have h00 : gridGet g 0 0 = 127 := by
    have hg0 : g.getD 0 [] = g.get ⟨0, hh⟩ := by
      rw [List.getD_eq_getElem _ _ hh, List.get_eq_getElem]
    rw [hg0] at hrow0
    unfold gridGet
    rw [hg0, List.getD_eq_getElem _ _ hrow0]
    exact hall _ (List.get_mem g _ hh) _ (List.getElem_mem hrow0)
  rw [hfinal, h00]
  norm_num [quantize]

theorem c4_witness :
    gridGet (floyd_steinberg_dither [[(127 : ℚ), 127]]) 0 0 = 0 :=
  c4_amended_first_cell_black [[(127 : ℚ), 127]] 2
    (by decide) (by decide) (by decide) (by simp)

/-- Claim C5: the golden trace on the 2×2 grid `[[100, 100], [100, 100]]`:
the scan visits `(0,0)`, `(0,1)`, `(1,0)`, `(1,1)` in order; at `(0,0)`
it reads `old = 100`, writes `new = 0`, has error `100`, adds `43.75` to
`(0,1)` making it `143.75`, skips the below-left target, adds `31.25` to
`(1,0)` making it `131.25`, and adds `6.25` to `(1,1)` making it
`106.25`; at `(0,1)` it reads `143.75`, writes `255`, and diffuses error
`-111.25` to `(1,0)` and `(1,1)` only, making them `110.390625` and
`71.484375`. -/
theorem c5_golden_trace_2x2 :
    rasterIndices 2 2 = [(0, 0), (0, 1), (1, 0), (1, 1)]
    ∧ gridGet [[(100 : ℚ), 100], [100, 100]] 0 0 = 100
    ∧ quantize 100 = 0
    ∧ (100 : ℚ) - quantize 100 = 100
    ∧ ditherPixel 2 2 [[(100 : ℚ), 100], [100, 100]] 0 0
        = [[0, 143.75], [131.25, 106.25]]
    ∧ gridGet (ditherPixel 2 2 [[(100 : ℚ), 100], [100, 100]] 0 0) 0 1 = 143.75
    ∧ quantize 143.75 = 255
    ∧ (143.75 : ℚ) - quantize 143.75 = -111.25
    ∧ ditherPixel 2 2 (ditherPixel 2 2 [[(100 : ℚ), 100], [100, 100]] 0 0) 0 1
        = [[0, 255], [110.390625, 71.484375]] := by
  refine ⟨?_, ?_, ?_, ?_, ?_, ?_, ?_, ?_, ?_⟩ <;>
    norm_num [rasterIndices, ditherPixel, gridAdd, gridSet, gridGet, quantize,
      List.range_succ]

/-- Claim C6: the pass visits every cell exactly once as the current
pixel, in strict raster order, and every write of a loop-body step
targets the current pixel or a cell strictly later in the scan order, so
a cell's final value is the quantization of its stored value when it is
visited and is never modified afterwards. -/
theorem c6_raster_once_decided (g : Grid) (w y x : Nat)
    (hrect : ∀ r ∈ g, r.length = w) (hy : y < g.length) (hx : x < w) :
    ∃ before after,
      rasterIndices g.length w = before ++ (y, x) :: after
      ∧ (∀ q ∈ before, rasterLT q (y, x))
      ∧ (∀ q ∈ after, rasterLT (y, x) q)
      ∧ (rasterIndices g.length w).count (y, x) = 1
      ∧ (∀ (gmid : Grid) (y' x' : Nat),
          gridGet (ditherPixel g.length w gmid y x) y' x' ≠ gridGet gmid y' x'
          → rasterLT (y, x) (y', x') ∨ (y', x') = (y, x))
      ∧ gridGet (floyd_steinberg_dither g) y x
          = quantize (gridGet (ditherFold g.length w g before) y x) := by
  obtain ⟨before, after, heq, hb, ha, hfinal⟩ := dither_get_eq_quantize hrect hy hx
  refine ⟨before, after, heq, hb, ha, ?_, ?_, hfinal⟩
  · rw [heq, List.count_append, List.count_cons_self]
    have hbz : before.count (y, x) = 0 := List.count_eq_zero.mpr (by
      intro hmem
      have hq := hb _ hmem
      simp [rasterLT] at hq)
    have haz : after.count (y, x) = 0 := List.count_eq_zero.mpr (by
      intro hmem
      have hq := ha _ hmem
      simp [rasterLT] at hq)
    rw [hbz, haz]
  · intro gmid y' x' hchange
    by_cases e0 : (y', x') = (y, x)
    · exact Or.inr e0
    by_cases e1 : (y', x') = (y, x + 1)
    · refine Or.inl ?_
      rw [e1]
      exact Or.inr ⟨rfl, by omega⟩
    by_cases e2 : (y', x') = (y + 1, x - 1)
    · refine Or.inl ?_
      rw [e2]
      exact Or.inl (by omega)
    by_cases e3 : (y', x') = (y + 1, x)
    · refine Or.inl ?_
      rw [e3]
      exact Or.inl (by omega)
    by_cases e4 : (y', x') = (y + 1, x + 1)
    · refine Or.inl ?_
      rw [e4]
      exact Or.inl (by omega)
    exact absurd (gridGet_ditherPixel_nontarget _ _ gmid e0 e1 e2 e3 e4) hchange

theorem c6_witness :
    ∃ before after,
      rasterIndices ([[(200 : ℚ)]] : Grid).length 1 = before ++ (0, 0) :: after
      ∧ (∀ q ∈ before, rasterLT q (0, 0))
      ∧ (∀ q ∈ after, rasterLT (0, 0) q)
      ∧ (rasterIndices ([[(200 : ℚ)]] : Grid).length 1).count (0, 0) = 1
      ∧ (∀ (gmid : Grid) (y' x' : Nat),
          gridGet (ditherPixel ([[(200 : ℚ)]] : Grid).length 1 gmid 0 0) y' x'
              ≠ gridGet gmid y' x'
          → rasterLT (0, 0) (y', x') ∨ (y', x') = (0, 0))
      ∧ gridGet (floyd_steinberg_dither [[(200 : ℚ)]]) 0 0
          = quantize (gridGet (ditherFold ([[(200 : ℚ)]] : Grid).length 1
              [[(200 : ℚ)]] before) 0 0) :=
  c6_raster_once_decided [[(200 : ℚ)]] 1 0 0 (by decide) (by decide) (by decide)

/-- Claim C7: a rectangular grid whose cells are already all exactly `0`
or `255` is a fixed point of the pass, and consequently applying the pass
twice equals applying it once. -/
theorem c7_binary_fixed_point_idempotent (g : Grid) (w : Nat)
    (hrect : ∀ r ∈ g, r.length = w) :
    (allBinary g → floyd_steinberg_dither g = g)
    ∧ floyd_steinberg_dither (floyd_steinberg_dither g) = floyd_steinberg_dither g :=
  ⟨fun hbin => floyd_fixed_of_allBinary hrect hbin, floyd_idem hrect⟩

theorem c7_witness :
    floyd_steinberg_dither [[(255 : ℚ), 255], [255, 255]] = [[255, 255], [255, 255]]
    ∧ floyd_steinberg_dither [[(0 : ℚ), 0], [0, 0]] = [[0, 0], [0, 0]]
    ∧ floyd_steinberg_dither (floyd_steinberg_dither [[(100 : ℚ), 100], [100, 100]])
        = floyd_steinberg_dither [[(100 : ℚ), 100], [100, 100]] :=
  ⟨(c7_binary_fixed_point_idempotent [[(255 : ℚ), 255], [255, 255]] 2
      (by decide)).1 (by norm_num [allBinary]),
   (c7_binary_fixed_point_idempotent [[(0 : ℚ), 0], [0, 0]] 2
      (by decide)).1 (by norm_num [allBinary]),
   (c7_binary_fixed_point_idempotent [[(100 : ℚ), 100], [100, 100]] 2
      (by decide)).2⟩

/-- Claim C8: on the 1×1 grid `[[200]]` the pass returns `[[255]]`; all
four diffusion targets fail their bounds guards, so the step performs
only the quantization write — no out-of-bounds write and no failure. -/
theorem c8_boundary_1x1 :
    floyd_steinberg_dither [[(200 : ℚ)]] = [[255]]
    ∧ ditherPixel 1 1 [[(200 : ℚ)]] 0 0 = gridSet [[(200 : ℚ)]] 0 0 (quantize 200) := by
  constructor <;>
    norm_num [floyd_steinberg_dither, rasterIndices, ditherFold, ditherPixel,
      gridAdd, gridSet, gridGet, quantize, List.range_succ]

/-- Claim C9: invoked with an input path that fails the existence check,
`main` reports the missing file and returns normally with no conversion;
invoked with no positional argument it prints usage and returns; in
neither case does the conversion branch run. -/
theorem c9_cli_no_crash :
    (∀ (argv : List String) ( pathExists : String → Bool),
      2 ≤ argv.length → pathExists (argv.getD 1 "") = false
      → main argv pathExists = CliOutcome.fileNotFound (argv.getD 1 ""))
    ∧ (∀ (argv : List String) ( pathExists : String → Bool),
      argv.length < 2 → main argv pathExists = CliOutcome.usage)
    ∧ (∀ (argv : List String) ( pathExists : String → Bool) (p : String),
      pathExists (argv.getD 1 "") = false
      → main argv pathExists ≠ CliOutcome.convert p) := by
  refine ⟨?_, ?_, ?_⟩
  · intro argv pathExists hlen hmiss
    simp only [main]
    rw [if_neg (by omega), if_pos hmiss]
  · intro argv pathExists hlen
    simp only [main]
    rw [if_pos hlen]
  · intro argv pathExists p hmiss
    simp only [main]
    by_cases hlen : argv.length < 2
    · rw [if_pos hlen]
      exact fun hcon => CliOutcome.noConfusion hcon
    · rw [if_neg hlen, if_pos hmiss]
      exact fun hcon => CliOutcome.noConfusion hcon

theorem c9_witness :
    main ["prog", "missing.bmp"] (fun _ => false)
      = CliOutcome.fileNotFound (["prog", "missing.bmp"].getD 1 "")
    ∧ main ["prog"] (fun _ => false) = CliOutcome.usage :=
  ⟨c9_cli_no_crash.1 ["prog", "missing.bmp"] (fun _ => false) (by decide) rfl,
   c9_cli_no_crash.2.1 ["prog"] (fun _ => false) (by decide)⟩

/-- Claim C10: the call does not mutate the caller's image: the pixels
are copied into a fresh float buffer, the whole pass runs on that buffer,
and the returned binary image is newly constructed, so the image object
passed in holds the same values after the call as before. -/
theorem c10_caller_image_unchanged (image : Grid) :
    (floyd_steinberg_dither_call image).1.image = image
    ∧ (floyd_steinberg_dither_call image).2 = floyd_steinberg_dither image := by
  have hk := ditherCallStep_foldl image.length (image.headD []).length
    { image := image, img_array := image }
    (rasterIndices image.length (image.headD []).length)
  exact ⟨hk.1, hk.2⟩

end Crosspoint
